import Mathlib

/-!
Verification of the torrentrss feed-matching engine.

The definitions below are a shallow embedding of the Python sources:
  * `src/torrentrss/episode_number.py` (`EpisodeNumber`)
  * `src/torrentrss/subscription.py`   (`Subscription.__init__`)
  * `src/torrentrss/feed.py`           (`Feed.fetch`, `Feed.matching_subs`)
  * `src/torrentrss/_torrentrss.py`    (`Feed.torrent_url_for_entry`,
    `Feed.magnet_uri_for_entry`, `Feed.download_entry_torrent_file`,
    `Feed.download_entry`)

Python machine-level details are modelled as follows: Python `int` is `Int`;
a fallible Python call is `Except`; the built-in exceptions that the embedded
code can raise are the constructors of `PyError`; HTTP traffic is passed in as
explicit `HttpResponse` / parse-outcome values; a compiled regular expression
is abstracted as its named-group table plus its `search` function, whose
result is the match object's `groupdict()` (a named group maps to `none` when
it did not participate in the match).
-/

namespace TorrentRSS

set_option autoImplicit false

/-- Built-in Python exceptions raised by the embedded code paths. -/
inductive PyError where
  | keyError : String → PyError
  | valueError : String → PyError
  | typeError : String → PyError
  | nameError : String → PyError
  | httpError : Nat → PyError
  deriving DecidableEq, Repr

/-- From `episode_number.py`: an optional series number and an optional
episode number. -/
structure EpisodeNumber where
  series : Option Int
  episode : Option Int
  deriving DecidableEq, Repr

/-- From `EpisodeNumber.__gt__` in `episode_number.py`:
`self.episode is None` is never greater; otherwise an unset `other.episode`
makes `self` greater; otherwise two set-and-different series are compared by
series; otherwise episodes are compared. -/
def EpisodeNumber.gt (a b : EpisodeNumber) : Bool :=
  match a.episode with
  | none => false
  | some ae =>
    match b.episode with
    | none => true
    | some be =>
      match a.series, b.series with
      | some x, some y => if x ≠ y then decide (x > y) else decide (ae > be)
      | _, _ => decide (ae > be)

/-- The `groupdict()` of a Python regex match: every named group of the
pattern, mapped to its captured text, or to `none` when the group did not
participate in the match. -/
def GroupDict : Type := List (String × Option String)

/-- Digit-string accumulator for `pyInt`. -/
def pyIntDigits : List Char → Nat → Option Nat
  | [], acc => some acc
  | c :: cs, acc =>
    if c.isDigit then pyIntDigits cs (acc * 10 + (c.toNat - 48)) else none

/-- Python's `int()` on a string: an optional sign followed by at least one
decimal digit (sufficient for the digit runs regex groups capture here);
anything else is a `ValueError` (`none`). -/
def pyInt (s : String) : Option Int :=
  match s.toList with
  | [] => none
  | '-' :: cs => if cs = [] then none else (pyIntDigits cs 0).map (fun n => -(n : Int))
  | '+' :: cs => if cs = [] then none else (pyIntDigits cs 0).map (fun n => (n : Int))
  | cs => (pyIntDigits cs 0).map (fun n => (n : Int))

/-- From `EpisodeNumber.from_regex_match` in `episode_number.py`:
`cls(series=int(groups['series']) if 'series' in groups else None,
episode=int(groups['episode']))`.  Python evaluates the `series` keyword
argument first; `int` of a missing key is a `KeyError`, of `None` a
`TypeError`, and of a non-numeric string a `ValueError`. -/
def EpisodeNumber.from_regex_match (groups : GroupDict) : Except PyError EpisodeNumber :=
  let seriesResult : Except PyError (Option Int) :=
    match List.lookup "series" groups with
    | none => .ok none
    | some none => .error (.typeError "int() argument must be a string")
    | some (some sv) =>
      match pyInt sv with
      | none => .error (.valueError sv)
      | some m => .ok (some m)
  match seriesResult with
  | .error e => .error e
  | .ok series =>
    match List.lookup "episode" groups with
    | none => .error (.keyError "episode")
    | some none => .error (.typeError "int() argument must be a string")
    | some (some ev) =>
      match pyInt ev with
      | none => .error (.valueError ev)
      | some k => .ok ⟨series, some k⟩

/-- A compiled regular expression, abstracted as its table of named groups
(`Pattern.groupindex` keys) together with its `search` behaviour: applied to
a text, it returns `none` when there is no match, and otherwise the
`groupdict()` of the match object. -/
structure CompiledRegex where
  groupindex : List String
  search : String → Option GroupDict

/-- The subscription state carried through a scan: mirrors the `name`,
`regex` and `number` attributes of `Subscription` in `subscription.py`
(the `feed` back-pointer and `command` attribute play no part in the
matching engine). -/
structure Sub where
  name : String
  regex : CompiledRegex
  number : EpisodeNumber

/-- The `ConfigError` exception from `errors.py`. -/
structure ConfigError where
  message : String
  deriving DecidableEq, Repr

/-- From `Subscription.__init__` in `subscription.py`: compiling the pattern
(`re.compile` is abstracted as the already-attempted `compiled` argument,
an `Except` carrying either the compiled regex or the `re.error` argument
text), raising `ConfigError` when the pattern is invalid or has no `episode`
named group, and otherwise storing the number built from the optional
configured series and episode numbers. -/
def Subscription.init (feedName name pattern : String)
    (compiled : Except String CompiledRegex)
    (series_number episode_number : Option Int) : Except ConfigError Sub :=
  match compiled with
  | .error args =>
    .error ⟨"Feed " ++ feedName ++ " sub " ++ name ++ " pattern " ++ pattern
      ++ " not valid regex: " ++ args⟩
  | .ok regex =>
    if "episode" ∈ regex.groupindex then
      .ok { name := name, regex := regex, number := ⟨series_number, episode_number⟩ }
    else
      .error ⟨"Feed " ++ feedName ++ " sub " ++ name ++ " pattern " ++ pattern
        ++ " has no group for the episode number"⟩

/-- One link of a feed entry, with its `href` and MIME `type` keys. -/
structure Link where
  href : String
  type : String
  deriving DecidableEq, Repr

/-- A feedparser entry, restricted to the keys the engine reads:
`title`, the primary `link`, the `links` list, and the optional
`torrent_magneturi` key. -/
structure Entry where
  title : String
  link : String
  links : List Link
  torrent_magneturi : Option String
  deriving DecidableEq, Repr

/-- The outcome of `feedparser.parse`: the `bozo` flag, the text of the
`bozo_exception`, and the entry list (newest first). -/
structure ParsedFeed where
  bozo : Bool
  bozo_exception : String
  entries : List Entry
  deriving DecidableEq, Repr

/-- The `FeedError` exception from `errors.py`; `cause` models the
`raise ... from ...` chained exception. -/
structure FeedError where
  message : String
  cause : Option String
  deriving DecidableEq, Repr

/-- From `Feed.fetch` in `feed.py`: a response status other than 200 raises
`FeedError` naming the feed and url; a parse with the `bozo` flag set raises
`FeedError` naming the feed and url, chained from the `bozo_exception`;
otherwise the parsed feed is returned.  The HTTP exchange is modelled by the
`status` of the response and the `parsed` outcome of `feedparser.parse` on
its body. -/
def Feed.fetch (name url : String) (status : Nat) (parsed : ParsedFeed) :
    Except FeedError ParsedFeed :=
  if status ≠ 200 then
    .error ⟨"Feed " ++ name ++ ": error sending request to " ++ url, none⟩
  else if parsed.bozo then
    .error ⟨"Feed " ++ name ++ ": error parsing url " ++ url, some parsed.bozo_exception⟩
  else
    .ok parsed

/-- One element yielded by `Feed.matching_subs`.  The source yields the
`(sub, entry)` pair; `subIdx` records which subscription (its position in
the subscription list, modelling Python object identity), `number` is the
subscription's `number` attribute at the moment of the yield (the value just
assigned from the match), and `entryIdx` is the entry's index in the
original newest-first entry list (the `index` the source computes as
`len(entries) - index - 1`). -/
structure Yield where
  subIdx : Nat
  number : EpisodeNumber
  entryIdx : Nat
  entry : Entry
  deriving DecidableEq, Repr

/-- Errors that can escape a `matching_subs` scan: the `FeedError` raised by
`fetch`, or a Python exception raised by `EpisodeNumber.from_regex_match`. -/
inductive ScanError where
  | feedErr : FeedError → ScanError
  | pyErr : PyError → ScanError
  deriving DecidableEq, Repr

/-- The match-and-parse step of the inner loop of `Feed.matching_subs`:
`regex.search(entry['title'])` followed, on a match, by
`EpisodeNumber.from_regex_match(match)`. -/
def matchNumber (r : CompiledRegex) (e : Entry) : Except PyError (Option EpisodeNumber) :=
  match r.search e.title with
  | none => .ok none
  | some groups =>
    match EpisodeNumber.from_regex_match groups with
    | .error err => .error err
    | .ok n => .ok (some n)

/-- The body of the inner loop of `Feed.matching_subs` for one subscription
(paired with its snapshot `original_numbers` baseline) against one entry
(paired with its index in the original entry list): on a match whose number
is greater than the baseline, the subscription's `number` is set to the
matched number and the pair is yielded.  `k` is the subscription's position
in the subscription list. -/
def stepSub (ie : Nat × Entry) (k : Nat) (sb : Sub × EpisodeNumber) :
    Except PyError ((Sub × EpisodeNumber) × Option Yield) :=
  match matchNumber sb.1.regex ie.2 with
  | .error err => .error err
  | .ok none => .ok (sb, none)
  | .ok (some number) =>
    if number.gt sb.2 then
      .ok (({ sb.1 with number := number }, sb.2), some ⟨k, number, ie.1, ie.2⟩)
    else
      .ok (sb, none)

/-- The inner `for sub in self.subscriptions.values()` loop of
`Feed.matching_subs`, over the remaining subscriptions starting at
position `k`. -/
def scanEntry (ie : Nat × Entry) (k : Nat) :
    List (Sub × EpisodeNumber) → Except PyError (List (Sub × EpisodeNumber) × List Yield)
  | [] => .ok ([], [])
  | sb :: rest =>
    match stepSub ie k sb with
    | .error err => .error err
    | .ok (sb2, oy) =>
      match scanEntry ie (k + 1) rest with
      | .error err => .error err
      | .ok (rest2, ys) => .ok (sb2 :: rest2, oy.toList ++ ys)

/-- The outer `for index, entry in enumerate(reversed(rss['entries']))` loop
of `Feed.matching_subs`, over the (original-index, entry) pairs in iteration
order. -/
def scanEntries :
    List (Nat × Entry) → List (Sub × EpisodeNumber) →
    Except PyError (List (Sub × EpisodeNumber) × List Yield)
  | [], pairs => .ok (pairs, [])
  | ie :: rest, pairs =>
    match scanEntry ie 0 pairs with
    | .error err => .error err
    | .ok (pairs2, ys1) =>
      match scanEntries rest pairs2 with
      | .error err => .error err
      | .ok (pairs3, ys2) => .ok (pairs3, ys1 ++ ys2)

/-- From `Feed.matching_subs` in `feed.py`: with no subscriptions the
generator returns before fetching; otherwise the feed is fetched (a
`FeedError` aborts the scan with nothing yielded), every subscription's
current number is snapshot into `original_numbers`, and the entries are
iterated oldest-to-newest (the newest-first entry list reversed, each entry
paired with its index in the original list), each against every
subscription.  The result is the final subscription list together with the
yielded sequence. -/
def Feed.matching_subs (subs : List Sub) (name url : String) (status : Nat)
    (parsed : ParsedFeed) : Except ScanError (List Sub × List Yield) :=
  if subs.isEmpty then
    .ok (subs, [])
  else
    match Feed.fetch name url status parsed with
    | .error err => .error (.feedErr err)
    | .ok rss =>
      match scanEntries rss.entries.enum.reverse (subs.map fun s => (s, s.number)) with
      | .error err => .error (.pyErr err)
      | .ok (pairs, ys) => .ok (pairs.map Prod.fst, ys)

/-- The `TORRENT_MIMETYPE` constant. -/
def TORRENT_MIMETYPE : String := "application/x-bittorrent"

/-- The loop of `Feed.torrent_url_for_entry` in `_torrentrss.py`: the `href`
of the first link whose `type` is `TORRENT_MIMETYPE`, if any. -/
def firstTorrentHref : List Link → Option String
  | [] => none
  | l :: rest => if l.type = TORRENT_MIMETYPE then some l.href else firstTorrentHref rest

/-- From `Feed.torrent_url_for_entry` in `_torrentrss.py`: the first link with
the torrent MIME type, falling back to the entry's primary `link`. -/
def Feed.torrent_url_for_entry (rss_entry : Entry) : String :=
  match firstTorrentHref rss_entry.links with
  | some href => href
  | none => rss_entry.link

/-- From `Feed.magnet_uri_for_entry` in `_torrentrss.py`:
`rss_entry['torrent_magneturi']`, re-raising the `KeyError` when the entry
has no such key. -/
def Feed.magnet_uri_for_entry (rss_entry : Entry) : Except PyError String :=
  match rss_entry.torrent_magneturi with
  | some magnet => .ok magnet
  | none => .error (.keyError "torrent_magneturi")

/-- The acquisition-mode flags of a `Feed` in `_torrentrss.py`. -/
structure DLFlags where
  magnet_enabled : Bool
  torrent_url_enabled : Bool
  torrent_file_enabled : Bool
  hide_torrent_filename_enabled : Bool
  deriving DecidableEq, Repr

/-- An HTTP response, as much of it as the engine observes: the status code
and the body. -/
structure HttpResponse where
  status : Nat
  body : String
  deriving DecidableEq, Repr

/-- `pathlib.Path.with_suffix('.torrent')` on a file name: an existing suffix
(a dot at some position after the first character, with the last such dot
starting the suffix) is replaced, otherwise `.torrent` is appended. -/
def with_suffix_torrent (name : String) : String :=
  let cs := name.toList
  let rev := cs.reverse
  match rev.findIdx? (· = '.') with
  | none => name ++ ".torrent"
  | some i =>
    if cs.length - 1 - i = 0 then name ++ ".torrent"
    else String.mk (cs.take (cs.length - 1 - i)) ++ ".torrent"

/-- From `Feed.download_entry_torrent_file` in `_torrentrss.py`, on a
non-Windows platform (`WINDOWS` is false, so the forbidden-character
substitution is skipped): the GET response is modelled by `resp`;
`response.raise_for_status()` raises on a 4xx/5xx status; then, with
`hide_torrent_filename_enabled`, the source evaluates
`hashlib.sha3_224(response_content).hexdigest()` where `response_content`
is an undefined name, so that branch raises `NameError`; otherwise the
entry's title is used, and the file is written under the directory with the
`.torrent` suffix. -/
def Feed.download_entry_torrent_file (hide_torrent_filename_enabled : Bool)
    (rss_entry : Entry) (directory : String) (resp : HttpResponse) :
    Except PyError String :=
  if 400 ≤ resp.status then
    .error (.httpError resp.status)
  else if hide_torrent_filename_enabled then
    .error (.nameError "response_content")
  else
    .ok (directory ++ "/" ++ with_suffix_torrent rss_entry.title)

/-- The result of `Feed.download_entry`: a magnet URI, a torrent URL, or the
path of a downloaded torrent file. -/
inductive DownloadResult where
  | magnet : String → DownloadResult
  | url : String → DownloadResult
  | file : String → DownloadResult
  deriving DecidableEq, Repr

/-- A one-line rendering of a `PyError`, used as the chained cause of a
`FeedError`. -/
def PyError.text : PyError → String
  | .keyError s => "KeyError: " ++ s
  | .valueError s => "ValueError: " ++ s
  | .typeError s => "TypeError: " ++ s
  | .nameError s => "NameError: " ++ s
  | .httpError n => "HTTPError: " ++ toString n

/-- From `Feed.download_entry` in `_torrentrss.py`: with `magnet_enabled`,
return the entry's magnet URI when present (a missing key is suppressed);
otherwise resolve the torrent url; with `torrent_url_enabled` return it;
with `torrent_file_enabled` also false, raise `FeedError` that nothing can
be downloaded; otherwise download the torrent file, wrapping any failure in
a `FeedError` naming the feed and url. -/
def Feed.download_entry (f : DLFlags) (feedName : String) (rss_entry : Entry)
    (directory : String) (resp : HttpResponse) : Except FeedError DownloadResult :=
  let magnetAttempt : Option String :=
    if f.magnet_enabled then
      match Feed.magnet_uri_for_entry rss_entry with
      | .ok magnet => some magnet
      | .error _ => none
    else none
  match magnetAttempt with
  | some magnet => .ok (.magnet magnet)
  | none =>
    let url := Feed.torrent_url_for_entry rss_entry
    if f.torrent_url_enabled then
      .ok (.url url)
    else if f.torrent_file_enabled = false then
      .error ⟨"Feed " ++ feedName ++ ": "
        ++ (if f.magnet_enabled then
              "magnet_enabled is true but it failed, and torrent_url_enabled and torrent_file_enabled are false."
            else
              "magnet_enabled, torrent_url_enabled, and torrent_file_enabled are all false.")
        ++ "Nothing to download.", none⟩
    else
      match Feed.download_entry_torrent_file f.hide_torrent_filename_enabled
          rss_entry directory resp with
      | .ok path => .ok (.file path)
      | .error err =>
        .error ⟨"Feed " ++ feedName ++ ": failed to download " ++ url, some err.text⟩

/-- A default compiled regex (matches nothing), used only as the `getD`
default in theorem statements. -/
def defaultRegex : CompiledRegex := ⟨[], fun _ => none⟩

/-- A default subscription, used only as the `getD` default in theorem
statements. -/
def defaultSub : Sub := ⟨"", defaultRegex, ⟨none, none⟩⟩

/-- A default (subscription, baseline) pair, used only as the `getD` default
in theorem statements. -/
def defaultPair : Sub × EpisodeNumber := (defaultSub, ⟨none, none⟩)

/-! ## Basic lemmas about the comparison -/

theorem gt_of_episode_isSome_min {b : EpisodeNumber} (h : b.episode.isSome = true) :
    b.gt ⟨none, none⟩ = true := by
  obtain ⟨sb, eb⟩ := b
  cases eb with
  | none => simp at h
  | some be => rfl

theorem matchNumber_ok_some {r : CompiledRegex} {e : Entry} {n : EpisodeNumber}
    (h : matchNumber r e = .ok (some n)) :
    ∃ groups, r.search e.title = some groups
      ∧ EpisodeNumber.from_regex_match groups = .ok n := by
  unfold matchNumber at h
  cases hs : r.search e.title with
  | none => rw [hs] at h; exact absurd h (by simp)
  | some groups =>
    rw [hs] at h
    dsimp only at h
    cases hp : EpisodeNumber.from_regex_match groups with
    | error err => rw [hp] at h; exact absurd h (by simp)
    | ok m =>
      rw [hp] at h
      simp only [Except.ok.injEq, Option.some.injEq] at h
      exact ⟨groups, rfl, by rw [hp, h]⟩

theorem from_regex_match_episode_isSome {groups : GroupDict} {n : EpisodeNumber}
    (h : EpisodeNumber.from_regex_match groups = .ok n) :
    n.episode.isSome = true := by
  unfold EpisodeNumber.from_regex_match at h
  rcases hs : List.lookup "series" groups with _ | ⟨_ | sv⟩ <;> rw [hs] at h <;>
    dsimp only at h
  case none =>
    rcases he : List.lookup "episode" groups with _ | ⟨_ | ev⟩ <;> rw [he] at h <;>
      dsimp only at h <;> try exact absurd h (by simp)
    rcases hv : pyInt ev with _ | k <;> rw [hv] at h <;> dsimp only at h
    · exact absurd h (by simp)
    · simp only [Except.ok.injEq] at h; rw [← h]; rfl
  case some.none => exact absurd h (by simp)
  case some.some =>
    rcases hm : pyInt sv with _ | m <;> rw [hm] at h <;> dsimp only at h
    · exact absurd h (by simp)
    · rcases he : List.lookup "episode" groups with _ | ⟨_ | ev⟩ <;> rw [he] at h <;>
        dsimp only at h <;> try exact absurd h (by simp)
      rcases hv : pyInt ev with _ | k <;> rw [hv] at h <;> dsimp only at h
      · exact absurd h (by simp)
      · simp only [Except.ok.injEq] at h; rw [← h]; rfl

/-! ## Concrete scan scenarios used in counterexamples and witnesses -/

/-- A regex matching title `E5` with episode 5 and `E3` with episode 3. -/
def cx1Regex : CompiledRegex :=
  ⟨["episode"], fun t =>
    if t = "E5" then some [("episode", some "5")]
    else if t = "E3" then some [("episode", some "3")]
    else none⟩

/-- A subscription on `cx1Regex` with no stored number. -/
def cx1Sub : Sub := ⟨"s1", cx1Regex, ⟨none, none⟩⟩

/-- Newest entry of the out-of-order feed: episode 3. -/
def cx1EntryNew : Entry := ⟨"E3", "l3", [], none⟩

/-- Oldest entry of the out-of-order feed: episode 5. -/
def cx1EntryOld : Entry := ⟨"E5", "l5", [], none⟩

/-- A successfully parsed feed whose newest-first entries are E3 then E5:
the feed carries the episodes out of numeric order. -/
def cx1Parsed : ParsedFeed := ⟨false, "", [cx1EntryNew, cx1EntryOld]⟩

/-- A regex matching title `A7` with episode 7 and `A6` with episode 6. -/
def cx2Regex : CompiledRegex :=
  ⟨["episode"], fun t =>
    if t = "A7" then some [("episode", some "7")]
    else if t = "A6" then some [("episode", some "6")]
    else none⟩

/-- A subscription on `cx2Regex` with no stored number. -/
def cx2Sub : Sub := ⟨"s2", cx2Regex, ⟨none, none⟩⟩

/-- Newest entry of the second out-of-order feed: episode 6. -/
def cx2EntryNew : Entry := ⟨"A6", "la6", [], none⟩

/-- Oldest entry of the second out-of-order feed: episode 7. -/
def cx2EntryOld : Entry := ⟨"A7", "la7", [], none⟩

/-- A successfully parsed feed whose newest-first entries are A6 then A7. -/
def cx2Parsed : ParsedFeed := ⟨false, "", [cx2EntryNew, cx2EntryOld]⟩

/-- A regex matching title `B1` with episode 1 and `B2` with episode 2. -/
def w1Regex : CompiledRegex :=
  ⟨["episode"], fun t =>
    if t = "B1" then some [("episode", some "1")]
    else if t = "B2" then some [("episode", some "2")]
    else none⟩

/-- A subscription on `w1Regex` with no stored number. -/
def w1Sub : Sub := ⟨"w1", w1Regex, ⟨none, none⟩⟩

/-- Newest entry of the in-order feed: episode 2. -/
def w1EntryNew : Entry := ⟨"B2", "lb2", [], none⟩

/-- Oldest entry of the in-order feed: episode 1. -/
def w1EntryOld : Entry := ⟨"B1", "lb1", [], none⟩

/-- A successfully parsed feed whose newest-first entries are B2 then B1. -/
def w1Parsed : ParsedFeed := ⟨false, "", [w1EntryNew, w1EntryOld]⟩

/-- The subscription list after scanning `w1Parsed`. -/
def w1Subs2 : List Sub := [⟨"w1", w1Regex, ⟨none, some 2⟩⟩]

/-- The yields of scanning `w1Parsed`. -/
def w1Ys : List Yield :=
  [⟨0, ⟨none, some 1⟩, 1, w1EntryOld⟩, ⟨0, ⟨none, some 2⟩, 0, w1EntryNew⟩]

/-- A regex matching title `D1` with episode 1 and `D2` with episode 2. -/
def w2Regex : CompiledRegex :=
  ⟨["episode"], fun t =>
    if t = "D1" then some [("episode", some "1")]
    else if t = "D2" then some [("episode", some "2")]
    else none⟩

/-- A subscription on `w2Regex` with no stored number. -/
def w2Sub : Sub := ⟨"w2", w2Regex, ⟨none, none⟩⟩

/-- Newest entry of the second in-order feed: episode 2. -/
def w2EntryNew : Entry := ⟨"D2", "ld2", [], none⟩

/-- Oldest entry of the second in-order feed: episode 1. -/
def w2EntryOld : Entry := ⟨"D1", "ld1", [], none⟩

/-- A successfully parsed feed whose newest-first entries are D2 then D1. -/
def w2Parsed : ParsedFeed := ⟨false, "", [w2EntryNew, w2EntryOld]⟩

/-- The subscription list after scanning `w2Parsed`. -/
def w2Subs2 : List Sub := [⟨"w2", w2Regex, ⟨none, some 2⟩⟩]

/-- The yields of scanning `w2Parsed`. -/
def w2Ys : List Yield :=
  [⟨0, ⟨none, some 1⟩, 1, w2EntryOld⟩, ⟨0, ⟨none, some 2⟩, 0, w2EntryNew⟩]

/-- A regex matching title `Z7` with episode 7. -/
def w10Regex : CompiledRegex :=
  ⟨["episode"], fun t => if t = "Z7" then some [("episode", some "7")] else none⟩

/-- A subscription on `w10Regex` with no stored number. -/
def w10Sub : Sub := ⟨"w10", w10Regex, ⟨none, none⟩⟩

/-- A single entry with episode 7. -/
def w10Entry : Entry := ⟨"Z7", "lz", [], none⟩

/-- A successfully parsed single-entry feed. -/
def w10Parsed : ParsedFeed := ⟨false, "", [w10Entry]⟩

/-- The subscription list after scanning `w10Parsed`. -/
def w10Subs2 : List Sub := [⟨"w10", w10Regex, ⟨none, some 7⟩⟩]

/-- The yields of scanning `w10Parsed`. -/
def w10Ys : List Yield := [⟨0, ⟨none, some 7⟩, 0, w10Entry⟩]

/-! ## Lemmas about the scan -/

theorem stepSub_ok (ie : Nat × Entry) (k : Nat) (sb sb2 : Sub × EpisodeNumber)
    (oy : Option Yield) (h : stepSub ie k sb = .ok (sb2, oy)) :
    (oy = none ∧ sb2 = sb) ∨
    (∃ n, oy = some ⟨k, n, ie.1, ie.2⟩ ∧
      matchNumber sb.1.regex ie.2 = .ok (some n) ∧ n.gt sb.2 = true ∧
      sb2 = ({ sb.1 with number := n }, sb.2)) := by
  unfold stepSub at h
  cases hmn : matchNumber sb.1.regex ie.2 with
  | error err =>
    rw [hmn] at h
    exact absurd h (by simp)
  | ok o =>
    rw [hmn] at h
    cases o with
    | none =>
      dsimp only at h
      simp only [Except.ok.injEq, Prod.mk.injEq] at h
      exact Or.inl ⟨h.2.symm, h.1.symm⟩
    | some number =>
      dsimp only at h
      by_cases hgt : number.gt sb.2 = true
      · rw [if_pos hgt] at h
        simp only [Except.ok.injEq, Prod.mk.injEq] at h
        exact Or.inr ⟨number, h.2.symm, rfl, hgt, h.1.symm⟩
      · rw [if_neg hgt] at h
        simp only [Except.ok.injEq, Prod.mk.injEq] at h
        exact Or.inl ⟨h.2.symm, h.1.symm⟩

theorem stepSub_of_match (ie : Nat × Entry) (k : Nat) (sb : Sub × EpisodeNumber)
    (n : EpisodeNumber) (hmn : matchNumber sb.1.regex ie.2 = .ok (some n))
    (hgt : n.gt sb.2 = true) :
    stepSub ie k sb = .ok (({ sb.1 with number := n }, sb.2), some ⟨k, n, ie.1, ie.2⟩) := by
  unfold stepSub
  rw [hmn]
  dsimp only
  rw [if_pos hgt]

theorem scanEntry_spec (ie : Nat × Entry) (k : Nat)
    (pairs pairs2 : List (Sub × EpisodeNumber)) (ys : List Yield)
    (h : scanEntry ie k pairs = .ok (pairs2, ys)) :
    pairs2.length = pairs.length ∧
    (∀ y ∈ ys, k ≤ y.subIdx ∧ y.subIdx < k + pairs.length ∧
      y.entryIdx = ie.1 ∧ y.entry = ie.2) ∧
    (∀ j, j < pairs.length →
      (pairs2.getD j defaultPair).2 = (pairs.getD j defaultPair).2 ∧
      (pairs2.getD j defaultPair).1.name = (pairs.getD j defaultPair).1.name ∧
      (pairs2.getD j defaultPair).1.regex = (pairs.getD j defaultPair).1.regex ∧
      ((ys.filter (fun y => y.subIdx == k + j) = [] ∧
        (pairs2.getD j defaultPair).1.number = (pairs.getD j defaultPair).1.number) ∨
       (∃ y, ys.filter (fun y => y.subIdx == k + j) = [y] ∧
        (pairs2.getD j defaultPair).1.number = y.number ∧
        y.number.gt (pairs.getD j defaultPair).2 = true))) ∧
    (∀ j n, j < pairs.length →
      matchNumber (pairs.getD j defaultPair).1.regex ie.2 = .ok (some n) →
      n.gt (pairs.getD j defaultPair).2 = true →
      (⟨k + j, n, ie.1, ie.2⟩ : Yield) ∈ ys) := by
  induction pairs generalizing k pairs2 ys with
  | nil =>
    simp only [scanEntry, Except.ok.injEq, Prod.mk.injEq] at h
    obtain ⟨h1, h2⟩ := h
    subst h1
    subst h2
    refine ⟨rfl, by simp, by simp, by simp⟩
  | cons sb rest ih =>
    unfold scanEntry at h
    cases hstep : stepSub ie k sb with
    | error err =>
      rw [hstep] at h
      exact absurd h (by simp)
    | ok p =>
      obtain ⟨sb2, oy⟩ := p
      rw [hstep] at h
      dsimp only at h
      cases hrest : scanEntry ie (k + 1) rest with
      | error err =>
        rw [hrest] at h
        exact absurd h (by simp)
      | ok q =>
        obtain ⟨rest2, ys0⟩ := q
        rw [hrest] at h
        dsimp only at h
        simp only [Except.ok.injEq, Prod.mk.injEq] at h
        obtain ⟨h1, h2⟩ := h
        subst h1
        subst h2
        obtain ⟨IH1, IH2, IH3, IH4⟩ := ih (k + 1) rest2 ys0 hrest
        have hys0ne : ∀ y ∈ ys0, y.subIdx ≠ k := by
          intro y hy
          have := (IH2 y hy).1
          omega
        have hys0filter : ys0.filter (fun y => y.subIdx == k) = [] := by
          rw [List.filter_eq_nil_iff]
          intro y hy
          simp only [beq_iff_eq]
          exact hys0ne y hy
        refine ⟨by simp [IH1], ?_, ?_, ?_⟩
        · intro y hy
          rcases List.mem_append.1 hy with hy | hy
          · rcases stepSub_ok ie k sb sb2 oy hstep with ⟨hoy, _⟩ | ⟨n0, hoy, _, _, _⟩
            · subst hoy
              simp at hy
            · subst hoy
              simp only [Option.toList_some, List.mem_singleton] at hy
              subst hy
              refine ⟨le_refl k, by simp, rfl, rfl⟩
          · obtain ⟨hb1, hb2, hb3, hb4⟩ := IH2 y hy
            exact ⟨by omega, by simp only [List.length_cons]; omega, hb3, hb4⟩
        · intro j hj
          cases j with
          | zero =>
            rcases stepSub_ok ie k sb sb2 oy hstep with ⟨hoy, hsb2⟩ |
                ⟨n0, hoy, hmn0, hgt0, hsb2⟩
            · subst hoy
              subst hsb2
              refine ⟨by simp, by simp, by simp, Or.inl ⟨?_, by simp⟩⟩
              simp only [Option.toList_none, List.nil_append, Nat.add_zero]
              exact hys0filter
            · subst hoy
              subst hsb2
              refine ⟨by simp, by simp, by simp, Or.inr ⟨⟨k, n0, ie.1, ie.2⟩, ?_, by simp, ?_⟩⟩
              · simp only [Option.toList_some, Nat.add_zero, List.filter_append,
                  hys0filter, List.append_nil]
                simp
              · simpa using hgt0
          | succ j =>
            have hj' : j < rest.length := by simpa using Nat.lt_of_succ_lt_succ hj
            have harith : k + (j + 1) = (k + 1) + j := by omega
            have hoyfilter : (oy.toList).filter (fun y => y.subIdx == k + (j + 1)) = [] := by
              rcases stepSub_ok ie k sb sb2 oy hstep with ⟨hoy, _⟩ | ⟨n0, hoy, _, _, _⟩
              · subst hoy; rfl
              · subst hoy
                simp only [Option.toList_some, List.filter_cons, List.filter_nil]
                have : (k == k + (j + 1)) = false := by rw [beq_eq_false_iff_ne]; omega
                simp [this]
            obtain ⟨ihb1, ihb2, ihb3, ihb4⟩ := IH3 j hj'
            refine ⟨by simpa using ihb1, by simpa using ihb2, by simpa using ihb3, ?_⟩
            rw [List.getD_cons_succ, List.getD_cons_succ]
            rw [List.filter_append, hoyfilter, List.nil_append, harith]
            exact ihb4
        · intro j n hj hmn hgt
          cases j with
          | zero =>
            simp only [List.getD_cons_zero] at hmn hgt
            have := stepSub_of_match ie k sb n hmn hgt
            rw [this] at hstep
            simp only [Except.ok.injEq, Prod.mk.injEq] at hstep
            obtain ⟨_, hoy⟩ := hstep
            subst hoy
            simp
          | succ j =>
            have hj' : j < rest.length := by simpa using Nat.lt_of_succ_lt_succ hj
            simp only [List.getD_cons_succ] at hmn hgt
            have hmem := IH4 j n hj' hmn hgt
            have harith : (k + 1) + j = k + (j + 1) := by omega
            rw [harith] at hmem
            exact List.mem_append.2 (Or.inr hmem)

theorem scanEntries_spec (ies : List (Nat × Entry))
    (pairs pairs2 : List (Sub × EpisodeNumber)) (ys : List Yield)
    (h : scanEntries ies pairs = .ok (pairs2, ys)) :
    pairs2.length = pairs.length ∧
    (∀ y ∈ ys, y.subIdx < pairs.length ∧ (y.entryIdx, y.entry) ∈ ies) ∧
    (∀ j, j < pairs.length →
      (pairs2.getD j defaultPair).2 = (pairs.getD j defaultPair).2 ∧
      (pairs2.getD j defaultPair).1.name = (pairs.getD j defaultPair).1.name ∧
      (pairs2.getD j defaultPair).1.regex = (pairs.getD j defaultPair).1.regex ∧
      (∀ y ∈ ys.filter (fun y => y.subIdx == j),
        y.number.gt (pairs.getD j defaultPair).2 = true) ∧
      (match (ys.filter (fun y => y.subIdx == j)).getLast? with
       | none => (pairs2.getD j defaultPair).1.number = (pairs.getD j defaultPair).1.number
       | some y => (pairs2.getD j defaultPair).1.number = y.number)) := by
  induction ies generalizing pairs pairs2 ys with
  | nil =>
    simp only [scanEntries, Except.ok.injEq, Prod.mk.injEq] at h
    obtain ⟨h1, h2⟩ := h
    subst h1
    subst h2
    refine ⟨rfl, by simp, ?_⟩
    intro j hj
    refine ⟨rfl, rfl, rfl, by simp, ?_⟩
    simp
  | cons ie rest ih =>
    unfold scanEntries at h
    cases hse : scanEntry ie 0 pairs with
    | error err =>
      rw [hse] at h
      exact absurd h (by simp)
    | ok p =>
      obtain ⟨pairsMid, ys1⟩ := p
      rw [hse] at h
      dsimp only at h
      cases hrest : scanEntries rest pairsMid with
      | error err =>
        rw [hrest] at h
        exact absurd h (by simp)
      | ok q =>
        obtain ⟨pairs3, ys2⟩ := q
        rw [hrest] at h
        dsimp only at h
        simp only [Except.ok.injEq, Prod.mk.injEq] at h
        obtain ⟨h1, h2⟩ := h
        subst h1
        subst h2
        obtain ⟨SE1, SE2, SE3, _⟩ := scanEntry_spec ie 0 pairs pairsMid ys1 hse
        obtain ⟨IH1, IH2, IH3⟩ := ih pairsMid pairs3 ys2 hrest
        refine ⟨IH1.trans SE1, ?_, ?_⟩
        · intro y hy
          rcases List.mem_append.1 hy with hy | hy
          · obtain ⟨_, hb, he1, he2⟩ := SE2 y hy
            refine ⟨by omega, ?_⟩
            rw [he1, he2, Prod.mk.eta]
            exact List.mem_cons_self _ _
          · obtain ⟨hb, hmem⟩ := IH2 y hy
            exact ⟨by rw [← SE1]; exact hb, List.mem_cons.2 (Or.inr hmem)⟩
        · intro j hj
          have hjMid : j < pairsMid.length := by rw [SE1]; exact hj
          obtain ⟨SE3a, SE3b, SE3c, SE3d⟩ := SE3 j hj
          simp only [Nat.zero_add] at SE3a SE3b SE3c SE3d
          obtain ⟨IH3a, IH3b, IH3c, IH3d, IH3e⟩ := IH3 j hjMid
          refine ⟨IH3a.trans SE3a, IH3b.trans SE3b, IH3c.trans SE3c, ?_, ?_⟩
          · intro y hy
            rw [List.filter_append] at hy
            rcases List.mem_append.1 hy with hy | hy
            · rcases SE3d with ⟨hf1, _⟩ | ⟨y0, hf1, _, hgt0⟩
              · rw [hf1] at hy
                simp at hy
              · rw [hf1] at hy
                simp only [List.mem_singleton] at hy
                subst hy
                exact hgt0
            · have := IH3d y hy
              rw [SE3a] at this
              exact this
          · rw [List.filter_append]
            cases hc2 : ys2.filter (fun y => y.subIdx == j) with
            | nil =>
              rw [hc2] at IH3e
              simp only [List.getLast?_nil] at IH3e
              rw [List.append_nil]
              rcases SE3d with ⟨hf1, hnum⟩ | ⟨y0, hf1, hnum0, _⟩
              · rw [hf1]
                simp only [List.getLast?_nil]
                exact IH3e.trans hnum
              · rw [hf1]
                simp only [List.getLast?_singleton]
                exact IH3e.trans hnum0
            | cons y0 tl =>
              rw [hc2] at IH3e
              rw [List.getLast?_append_cons]
              exact IH3e

theorem scanEntries_complete (ies : List (Nat × Entry))
    (pairs pairs2 : List (Sub × EpisodeNumber)) (ys : List Yield)
    (h : scanEntries ies pairs = .ok (pairs2, ys))
    (j : Nat) (n : EpisodeNumber) (i : Nat) (e : Entry)
    (hj : j < pairs.length) (hmem : (i, e) ∈ ies)
    (hmn : matchNumber (pairs.getD j defaultPair).1.regex e = .ok (some n))
    (hgt : n.gt (pairs.getD j defaultPair).2 = true) :
    (⟨j, n, i, e⟩ : Yield) ∈ ys := by
  induction ies generalizing pairs ys with
  | nil => simp at hmem
  | cons ie rest ih =>
    unfold scanEntries at h
    cases hse : scanEntry ie 0 pairs with
    | error err =>
      rw [hse] at h
      exact absurd h (by simp)
    | ok p =>
      obtain ⟨pairsMid, ys1⟩ := p
      rw [hse] at h
      dsimp only at h
      cases hrest : scanEntries rest pairsMid with
      | error err =>
        rw [hrest] at h
        exact absurd h (by simp)
      | ok q =>
        obtain ⟨pairs3, ys2⟩ := q
        rw [hrest] at h
        dsimp only at h
        simp only [Except.ok.injEq, Prod.mk.injEq] at h
        obtain ⟨h1, h2⟩ := h
        subst h1
        subst h2
        obtain ⟨SE1, _, SE3, SE4⟩ := scanEntry_spec ie 0 pairs pairsMid ys1 hse
        rcases List.mem_cons.1 hmem with heq | hmem'
        · have hie2 : ie.2 = e := by rw [← heq]
          have hie1 : ie.1 = i := by rw [← heq]
          have := SE4 j n hj (by rw [hie2]; exact hmn) hgt
          rw [Nat.zero_add, hie1, hie2] at this
          exact List.mem_append.2 (Or.inl this)
        · obtain ⟨SE3a, _, SE3c, _⟩ := SE3 j hj
          have hjMid : j < pairsMid.length := by rw [SE1]; exact hj
          have hmn' : matchNumber (pairsMid.getD j defaultPair).1.regex e
              = .ok (some n) := by rw [SE3c]; exact hmn
          have hgt' : n.gt (pairsMid.getD j defaultPair).2 = true := by
            rw [SE3a]; exact hgt
          exact List.mem_append.2 (Or.inr (ih pairsMid ys2 hrest hjMid hmem' hmn' hgt'))

theorem scanEntries_sorted (ies : List (Nat × Entry))
    (pairs pairs2 : List (Sub × EpisodeNumber)) (ys : List Yield)
    (h : scanEntries ies pairs = .ok (pairs2, ys))
    (hs : List.Pairwise (fun a b => b ≤ a) (ies.map Prod.fst)) :
    List.Pairwise (fun a b => b ≤ a) (ys.map Yield.entryIdx) := by
  induction ies generalizing pairs ys with
  | nil =>
    simp only [scanEntries, Except.ok.injEq, Prod.mk.injEq] at h
    rw [← h.2]
    simp
  | cons ie rest ih =>
    unfold scanEntries at h
    cases hse : scanEntry ie 0 pairs with
    | error err =>
      rw [hse] at h
      exact absurd h (by simp)
    | ok p =>
      obtain ⟨pairsMid, ys1⟩ := p
      rw [hse] at h
      dsimp only at h
      cases hrest : scanEntries rest pairsMid with
      | error err =>
        rw [hrest] at h
        exact absurd h (by simp)
      | ok q =>
        obtain ⟨pairs3, ys2⟩ := q
        rw [hrest] at h
        dsimp only at h
        simp only [Except.ok.injEq, Prod.mk.injEq] at h
        obtain ⟨h1, h2⟩ := h
        subst h1
        subst h2
        simp only [List.map_cons, List.pairwise_cons] at hs
        obtain ⟨hhead, htail⟩ := hs
        obtain ⟨_, SE2, _, _⟩ := scanEntry_spec ie 0 pairs pairsMid ys1 hse
        obtain ⟨_, SES2, _⟩ := scanEntries_spec rest pairsMid pairs3 ys2 hrest
        rw [List.map_append]
        rw [List.pairwise_append]
        refine ⟨?_, ih pairsMid ys2 hrest htail, ?_⟩
        · rw [List.pairwise_map]
          apply List.pairwise_of_forall_mem_list
          intro a ha b hb
          rw [(SE2 a ha).2.2.1, (SE2 b hb).2.2.1]
        · intro a ha b hb
          rcases List.mem_map.1 ha with ⟨ya, hya, rfl⟩
          rcases List.mem_map.1 hb with ⟨yb, hyb, rfl⟩
          rw [(SE2 ya hya).2.2.1]
          have : yb.entryIdx ∈ rest.map Prod.fst :=
            List.mem_map.2 ⟨(yb.entryIdx, yb.entry), (SES2 yb hyb).2, rfl⟩
          exact hhead yb.entryIdx this

theorem getD_map_pair (subs : List Sub) (j : Nat) (hj : j < subs.length) :
    (subs.map (fun s => (s, s.number))).getD j defaultPair
      = ((subs.getD j defaultSub), (subs.getD j defaultSub).number) := by
  induction subs generalizing j with
  | nil => simp at hj
  | cons s rest ih =>
    cases j with
    | zero => simp
    | succ j =>
      simp only [List.map_cons, List.getD_cons_succ]
      exact ih j (by simpa using Nat.lt_of_succ_lt_succ hj)

theorem getD_map_fst (pairs : List (Sub × EpisodeNumber)) (j : Nat)
    (hj : j < pairs.length) :
    (pairs.map Prod.fst).getD j defaultSub = (pairs.getD j defaultPair).1 := by
  induction pairs generalizing j with
  | nil => simp at hj
  | cons p rest ih =>
    cases j with
    | zero => simp
    | succ j =>
      simp only [List.map_cons, List.getD_cons_succ]
      exact ih j (by simpa using Nat.lt_of_succ_lt_succ hj)

/-! ## Claim C3 -/

/-- Claim C3: the `EpisodeNumber` greater-than relation is decided by exactly
these rules in order: an unset `a.episode` is never greater (so a value with
no episode, the minimum, is never greater than anything, another minimum
included); else an unset `b.episode` makes `a` greater; else when both series
are set and differ the result is `a.series > b.series` alone; otherwise the
result is `a.episode > b.episode` alone. -/
theorem C3_gt_rules (a b : EpisodeNumber) :
    (a.episode = none → a.gt b = false) ∧
    (a.episode.isSome = true → b.episode = none → a.gt b = true) ∧
    (∀ sa ae sb be, a = ⟨some sa, some ae⟩ → b = ⟨some sb, some be⟩ → sa ≠ sb →
      a.gt b = decide (sa > sb)) ∧
    (∀ ae be, a.episode = some ae → b.episode = some be →
      (a.series = none ∨ b.series = none ∨ a.series = b.series) →
      a.gt b = decide (ae > be)) := by
  obtain ⟨sa0, ea0⟩ := a
  obtain ⟨sb0, eb0⟩ := b
  refine ⟨?_, ?_, ?_, ?_⟩
  · intro h
    simp only at h
    subst h
    rfl
  · intro h1 h2
    simp only at h1 h2
    subst h2
    cases ea0 with
    | none => simp at h1
    | some ae => rfl
  · rintro sa ae sb be h1 h2 hne
    simp only [EpisodeNumber.mk.injEq] at h1 h2
    obtain ⟨rfl, rfl⟩ := h1
    obtain ⟨rfl, rfl⟩ := h2
    simp [EpisodeNumber.gt, hne]
  · intro ae be h1 h2 h3
    simp only at h1 h2
    subst h1
    subst h2
    simp only at h3
    rcases sa0 with _ | x <;> rcases sb0 with _ | y
    · rfl
    · rfl
    · rfl
    · rcases h3 with h | h | h
      · exact absurd h (by simp)
      · exact absurd h (by simp)
      · simp only [Option.some.injEq] at h
        subst h
        simp [EpisodeNumber.gt]

/-- Witness for C3 at concrete inputs exercising each rule. -/
theorem C3_gt_rules_witness :
    EpisodeNumber.gt ⟨some 2, some 3⟩ ⟨some 1, some 7⟩ = decide ((2 : Int) > 1) ∧
    EpisodeNumber.gt ⟨none, none⟩ ⟨some 1, some 7⟩ = false ∧
    EpisodeNumber.gt ⟨none, some 4⟩ ⟨some 1, none⟩ = true ∧
    EpisodeNumber.gt ⟨some 5, some 4⟩ ⟨some 5, some 9⟩ = decide ((4 : Int) > 9) :=
  ⟨(C3_gt_rules ⟨some 2, some 3⟩ ⟨some 1, some 7⟩).2.2.1 2 3 1 7 rfl rfl (by decide),
   (C3_gt_rules ⟨none, none⟩ ⟨some 1, some 7⟩).1 rfl,
   (C3_gt_rules ⟨none, some 4⟩ ⟨some 1, none⟩).2.1 rfl rfl,
   (C3_gt_rules ⟨some 5, some 4⟩ ⟨some 5, some 9⟩).2.2.2 4 9 rfl rfl
     (Or.inr (Or.inr rfl))⟩

/-! ## Claim C4 -/

/-- Counterexample to claim C4 as stated: `EpisodeNumber(1, None)` and
`EpisodeNumber(2, None)` have symmetric series presence, yet none of
`a > b`, `b > a`, `a == b` holds. -/
theorem C4_counterexample :
    (⟨some 1, none⟩ : EpisodeNumber).series.isSome
        = (⟨some 2, none⟩ : EpisodeNumber).series.isSome ∧
    EpisodeNumber.gt ⟨some 1, none⟩ ⟨some 2, none⟩ = false ∧
    EpisodeNumber.gt ⟨some 2, none⟩ ⟨some 1, none⟩ = false ∧
    (⟨some 1, none⟩ : EpisodeNumber) ≠ ⟨some 2, none⟩ := by
  refine ⟨rfl, rfl, rfl, ?_⟩
  decide

/-- Claim C4 (amended): trichotomy holds for symmetric series presence
provided at least one episode is set (the original claim fails when both
episodes are unset and the series differ); and `EpisodeNumber(None, None)`
is never greater than any value, while any value with a set episode is
strictly greater than it. -/
theorem C4_trichotomy (a b : EpisodeNumber) :
    (a.series.isSome = b.series.isSome →
      (a.episode.isSome = true ∨ b.episode.isSome = true) →
      ((a.gt b = true ∧ b.gt a = false ∧ a ≠ b) ∨
       (b.gt a = true ∧ a.gt b = false ∧ a ≠ b) ∨
       (a = b ∧ a.gt b = false ∧ b.gt a = false))) ∧
    (EpisodeNumber.gt ⟨none, none⟩ b = false) ∧
    (b.episode.isSome = true → b.gt ⟨none, none⟩ = true) := by
  obtain ⟨sa, ea⟩ := a
  obtain ⟨sb, eb⟩ := b
  refine ⟨?_, rfl, fun h => gt_of_episode_isSome_min h⟩
  intro hs he
  rcases ea with _ | ae
  · rcases eb with _ | be
    · simp at he
    · right; left
      refine ⟨rfl, rfl, ?_⟩
      simp
  · rcases eb with _ | be
    · left
      refine ⟨rfl, rfl, ?_⟩
      simp
    · rcases sa with _ | x <;> rcases sb with _ | y
      · rcases Int.lt_trichotomy ae be with h | h | h
        · right; left
          refine ⟨by simp [EpisodeNumber.gt]; omega, by simp [EpisodeNumber.gt]; omega, ?_⟩
          simp only [ne_eq, EpisodeNumber.mk.injEq, Option.some.injEq]
          omega
        · subst h
          right; right
          refine ⟨rfl, by simp [EpisodeNumber.gt], by simp [EpisodeNumber.gt]⟩
        · left
          refine ⟨by simp [EpisodeNumber.gt]; omega, by simp [EpisodeNumber.gt]; omega, ?_⟩
          simp only [ne_eq, EpisodeNumber.mk.injEq, Option.some.injEq]
          omega
      · simp at hs
      · simp at hs
      · by_cases hxy : x = y
        · subst hxy
          rcases Int.lt_trichotomy ae be with h | h | h
          · right; left
            refine ⟨by simp [EpisodeNumber.gt]; omega, by simp [EpisodeNumber.gt]; omega, ?_⟩
            simp only [ne_eq, EpisodeNumber.mk.injEq, Option.some.injEq]
            omega
          · subst h
            right; right
            refine ⟨rfl, by simp [EpisodeNumber.gt], by simp [EpisodeNumber.gt]⟩
          · left
            refine ⟨by simp [EpisodeNumber.gt]; omega, by simp [EpisodeNumber.gt]; omega, ?_⟩
            simp only [ne_eq, EpisodeNumber.mk.injEq, Option.some.injEq]
            omega
        · have hyx : y ≠ x := fun hh => hxy hh.symm
          rcases Int.lt_trichotomy x y with h | h | h
          · right; left
            refine ⟨by simp [EpisodeNumber.gt, hxy, hyx]; omega,
                    by simp [EpisodeNumber.gt, hxy, hyx]; omega, ?_⟩
            simp only [ne_eq, EpisodeNumber.mk.injEq, Option.some.injEq]
            omega
          · exact absurd h hxy
          · left
            refine ⟨by simp [EpisodeNumber.gt, hxy, hyx]; omega,
                    by simp [EpisodeNumber.gt, hxy, hyx]; omega, ?_⟩
            simp only [ne_eq, EpisodeNumber.mk.injEq, Option.some.injEq]
            omega

/-- Witness for the amended C4 at concrete inputs. -/
theorem C4_trichotomy_witness :
    (EpisodeNumber.gt ⟨some 2, some 1⟩ ⟨some 1, some 9⟩ = true ∧
     EpisodeNumber.gt ⟨some 1, some 9⟩ ⟨some 2, some 1⟩ = false ∧
     (⟨some 2, some 1⟩ : EpisodeNumber) ≠ ⟨some 1, some 9⟩) ∨
    (EpisodeNumber.gt ⟨some 1, some 9⟩ ⟨some 2, some 1⟩ = true ∧
     EpisodeNumber.gt ⟨some 2, some 1⟩ ⟨some 1, some 9⟩ = false ∧
     (⟨some 2, some 1⟩ : EpisodeNumber) ≠ ⟨some 1, some 9⟩) ∨
    ((⟨some 2, some 1⟩ : EpisodeNumber) = ⟨some 1, some 9⟩ ∧
     EpisodeNumber.gt ⟨some 2, some 1⟩ ⟨some 1, some 9⟩ = false ∧
     EpisodeNumber.gt ⟨some 1, some 9⟩ ⟨some 2, some 1⟩ = false) := by
  have h := (C4_trichotomy ⟨some 2, some 1⟩ ⟨some 1, some 9⟩).1 rfl (Or.inl rfl)
  rcases h with h | h | h
  · exact Or.inl ⟨h.1, h.2.1, h.2.2⟩
  · exact Or.inr (Or.inl ⟨h.1, h.2.1, h.2.2⟩)
  · exact Or.inr (Or.inr ⟨h.1, h.2.1, h.2.2⟩)

/-! ## Claim C9 -/

/-- Counterexample to claim C9 as stated: when the episode group is absent
the failure is the built-in `KeyError` raised by `groups['episode']`; the
program defines no `PatternError` (and its own test suite asserts
`KeyError`). -/
theorem C9_counterexample :
    EpisodeNumber.from_regex_match [("series", some "1")]
      = .error (.keyError "episode") := rfl

/-- Claim C9 (amended): `from_regex_match` parses the mandatory episode
group as an integer, parses the series group as an integer when it is
present in the capture groups and yields `series = None` otherwise, and
fails with a `KeyError` (not a `PatternError`, which the program does not
define) when the episode group is absent. -/
theorem C9_from_regex_match_spec (groups : GroupDict) :
    (∀ ev k, List.lookup "series" groups = none →
      List.lookup "episode" groups = some (some ev) → pyInt ev = some k →
      EpisodeNumber.from_regex_match groups = .ok ⟨none, some k⟩) ∧
    (∀ sv m ev k, List.lookup "series" groups = some (some sv) → pyInt sv = some m →
      List.lookup "episode" groups = some (some ev) → pyInt ev = some k →
      EpisodeNumber.from_regex_match groups = .ok ⟨some m, some k⟩) ∧
    (∀ sv m, (List.lookup "series" groups = none ∨
        (List.lookup "series" groups = some (some sv) ∧ pyInt sv = some m)) →
      List.lookup "episode" groups = none →
      EpisodeNumber.from_regex_match groups = .error (.keyError "episode")) := by
  refine ⟨?_, ?_, ?_⟩
  · intro ev k hs he hv
    simp [EpisodeNumber.from_regex_match, hs, he, hv]
  · intro sv m ev k hs hm he hv
    simp [EpisodeNumber.from_regex_match, hs, hm, he, hv]
  · intro sv m hs he
    rcases hs with hs | ⟨hs, hm⟩
    · simp [EpisodeNumber.from_regex_match, hs, he]
    · simp [EpisodeNumber.from_regex_match, hs, hm, he]

/-- Witness for the amended C9 at concrete inputs. -/
theorem C9_from_regex_match_spec_witness :
    EpisodeNumber.from_regex_match [("episode", some "12")] = .ok ⟨none, some 12⟩ ∧
    EpisodeNumber.from_regex_match [("series", some "2"), ("episode", some "4")]
      = .ok ⟨some 2, some 4⟩ ∧
    EpisodeNumber.from_regex_match [("series", some "2")]
      = .error (.keyError "episode") :=
  ⟨(C9_from_regex_match_spec [("episode", some "12")]).1 "12" 12 rfl rfl rfl,
   (C9_from_regex_match_spec [("series", some "2"), ("episode", some "4")]).2.1
     "2" 2 "4" 4 rfl rfl rfl rfl,
   (C9_from_regex_match_spec [("series", some "2")]).2.2 "2" 2
     (Or.inr ⟨rfl, rfl⟩) rfl⟩

/-! ## Claim C5 -/

theorem firstTorrentHref_eq_find (links : List Link) :
    firstTorrentHref links
      = (links.find? (fun l => l.type == TORRENT_MIMETYPE)).map Link.href := by
  induction links with
  | nil => rfl
  | cons l rest ih =>
    by_cases h : l.type = TORRENT_MIMETYPE
    · simp [firstTorrentHref, List.find?, h]
    · have hb : (l.type == TORRENT_MIMETYPE) = false := by simp [h]
      simp only [firstTorrentHref, h, if_false]
      rw [ih]
      simp [List.find?, hb]

/-- Claim C5: acquisition fallback order.  With magnet mode enabled and a
magnet URI on the entry, the magnet URI is returned immediately, for every
possible HTTP response (so no network request is consulted); otherwise the
torrent URL is the `href` of the first link with MIME type
`application/x-bittorrent`, falling back to the entry's primary link, and
with URL mode enabled that URL is returned directly. -/
theorem C5_download_resolution (f : DLFlags) (feedName : String) (e : Entry)
    (directory : String) (resp : HttpResponse) :
    (∀ m, f.magnet_enabled = true → e.torrent_magneturi = some m →
      Feed.download_entry f feedName e directory resp = .ok (.magnet m)) ∧
    ((f.magnet_enabled = false ∨ e.torrent_magneturi = none) →
      f.torrent_url_enabled = true →
      Feed.download_entry f feedName e directory resp
        = .ok (.url (Feed.torrent_url_for_entry e))) ∧
    (∀ l, e.links.find? (fun l => l.type == TORRENT_MIMETYPE) = some l →
      Feed.torrent_url_for_entry e = l.href) ∧
    (e.links.find? (fun l => l.type == TORRENT_MIMETYPE) = none →
      Feed.torrent_url_for_entry e = e.link) := by
  refine ⟨?_, ?_, ?_, ?_⟩
  · intro m h1 h2
    simp [Feed.download_entry, Feed.magnet_uri_for_entry, h1, h2]
  · intro h1 h2
    rcases h1 with h1 | h1
    · simp [Feed.download_entry, h1, h2]
    · simp [Feed.download_entry, Feed.magnet_uri_for_entry, h1, h2]
  · intro l h
    unfold Feed.torrent_url_for_entry
    rw [firstTorrentHref_eq_find, h]
    rfl
  · intro h
    unfold Feed.torrent_url_for_entry
    rw [firstTorrentHref_eq_find, h]
    rfl

/-- Witness for C5 at concrete inputs. -/
theorem C5_download_resolution_witness :
    Feed.download_entry ⟨true, true, true, true⟩ "F"
        ⟨"t", "https://x/fallback", [⟨"https://x/19.torrent", "application/x-bittorrent"⟩],
          some "magnet:x"⟩ "d" ⟨200, ""⟩
      = .ok (.magnet "magnet:x") ∧
    Feed.download_entry ⟨false, true, true, true⟩ "F"
        ⟨"t", "https://x/fallback", [⟨"https://x/19.torrent", "application/x-bittorrent"⟩],
          some "magnet:x"⟩ "d" ⟨200, ""⟩
      = .ok (.url (Feed.torrent_url_for_entry
          ⟨"t", "https://x/fallback", [⟨"https://x/19.torrent", "application/x-bittorrent"⟩],
            some "magnet:x"⟩)) ∧
    Feed.torrent_url_for_entry
        ⟨"t", "https://x/fallback", [⟨"https://x/19.torrent", "application/x-bittorrent"⟩],
          some "magnet:x"⟩
      = "https://x/19.torrent" ∧
    Feed.torrent_url_for_entry ⟨"t", "https://x/fallback", [], none⟩
      = "https://x/fallback" :=
  ⟨(C5_download_resolution ⟨true, true, true, true⟩ "F" _ "d" ⟨200, ""⟩).1
     "magnet:x" rfl rfl,
   (C5_download_resolution ⟨false, true, true, true⟩ "F" _ "d" ⟨200, ""⟩).2.1
     (Or.inl rfl) rfl,
   (C5_download_resolution ⟨true, true, true, true⟩ "F" _ "d" ⟨200, ""⟩).2.2.1
     ⟨"https://x/19.torrent", "application/x-bittorrent"⟩ (by decide),
   (C5_download_resolution ⟨true, true, true, true⟩ "F"
     ⟨"t", "https://x/fallback", [], none⟩ "d" ⟨200, ""⟩).2.2.2 rfl⟩

/-! ## Claim C6 -/

/-- Claim C6 is a code bug: evaluating `download_entry_torrent_file` at the
claim's scenario (file mode, hide-filename enabled, empty response body)
shows the hide-filename branch raising `NameError` — the source reads the
undefined name `response_content` (and the hash it spells is `sha3_224`,
not the SHA-256 its own tests `tests.py` assert) — instead of producing the
SHA-256 digest filename; the hide-disabled branch does use the entry's
title. -/
theorem C6_code_bug_eval :
    Feed.download_entry_torrent_file true ⟨"Title", "link", [], none⟩ "dir" ⟨200, ""⟩
      = .error (.nameError "response_content") ∧
    Feed.download_entry_torrent_file false ⟨"Title", "link", [], none⟩ "dir" ⟨200, ""⟩
      = .ok "dir/Title.torrent" :=
  ⟨rfl, rfl⟩

/-! ## Claim C7 -/

/-- Claim C7: a non-2xx HTTP status, or a body that fails to parse as a feed
(`bozo`), makes `fetch` raise a `FeedError` whose message names the feed and
its url (the parse failure chaining the `bozo_exception` as its cause), and
makes the whole `matching_subs` scan abort with that error and no yielded
pairs; with no subscriptions the scan yields nothing. -/
theorem C7_fetch_failure (name url : String) (status : Nat) (parsed : ParsedFeed)
    (subs : List Sub) :
    (¬(200 ≤ status ∧ status < 300) →
      Feed.fetch name url status parsed
        = .error ⟨"Feed " ++ name ++ ": error sending request to " ++ url, none⟩) ∧
    (status = 200 → parsed.bozo = true →
      Feed.fetch name url status parsed
        = .error ⟨"Feed " ++ name ++ ": error parsing url " ++ url,
                  some parsed.bozo_exception⟩) ∧
    (subs ≠ [] → ¬(200 ≤ status ∧ status < 300) →
      Feed.matching_subs subs name url status parsed
        = .error (.feedErr
            ⟨"Feed " ++ name ++ ": error sending request to " ++ url, none⟩)) ∧
    (subs ≠ [] → status = 200 → parsed.bozo = true →
      Feed.matching_subs subs name url status parsed
        = .error (.feedErr ⟨"Feed " ++ name ++ ": error parsing url " ++ url,
                  some parsed.bozo_exception⟩)) ∧
    (Feed.matching_subs ([] : List Sub) name url status parsed = .ok ([], [])) := by
  have hreq : ¬(200 ≤ status ∧ status < 300) → status ≠ 200 := by omega
  refine ⟨?_, ?_, ?_, ?_, ?_⟩
  · intro h
    simp [Feed.fetch, hreq h]
  · intro h1 h2
    subst h1
    simp [Feed.fetch, h2]
  · intro hsubs h
    have hne : subs.isEmpty = false := by
      cases subs with
      | nil => exact absurd rfl hsubs
      | cons a l => rfl
    simp [Feed.matching_subs, hne, Feed.fetch, hreq h]
  · intro hsubs h1 h2
    subst h1
    have hne : subs.isEmpty = false := by
      cases subs with
      | nil => exact absurd rfl hsubs
      | cons a l => rfl
    simp [Feed.matching_subs, hne, Feed.fetch, h2]
  · rfl

/-- Witness for C7 at concrete inputs: a 404 response, and a 200 response
whose body fails to parse. -/
theorem C7_fetch_failure_witness :
    Feed.fetch "f" "u" 404 ⟨false, "", []⟩
      = .error ⟨"Feed " ++ "f" ++ ": error sending request to " ++ "u", none⟩ ∧
    Feed.matching_subs [defaultSub] "f" "u" 200 ⟨true, "boom", []⟩
      = .error (.feedErr ⟨"Feed " ++ "f" ++ ": error parsing url " ++ "u",
          some "boom"⟩) :=
  ⟨(C7_fetch_failure "f" "u" 404 ⟨false, "", []⟩ [defaultSub]).1 (by omega),
   (C7_fetch_failure "f" "u" 200 ⟨true, "boom", []⟩ [defaultSub]).2.2.2.1
     (by simp) rfl rfl⟩

/-! ## Claim C8 -/

/-- Claim C8: constructing a `Subscription` from a pattern that does not
compile raises `ConfigError`; a compiled pattern without an `episode` named
group raises `ConfigError`; a compiled pattern with an `episode` group
succeeds, storing the configured numbers. -/
theorem C8_subscription_validation (feedName name pattern : String)
    (sn en : Option Int) :
    (∀ args, Subscription.init feedName name pattern (.error args) sn en
        = .error ⟨"Feed " ++ feedName ++ " sub " ++ name ++ " pattern " ++ pattern
            ++ " not valid regex: " ++ args⟩) ∧
    (∀ r, "episode" ∉ r.groupindex →
      Subscription.init feedName name pattern (.ok r) sn en
        = .error ⟨"Feed " ++ feedName ++ " sub " ++ name ++ " pattern " ++ pattern
            ++ " has no group for the episode number"⟩) ∧
    (∀ r, "episode" ∈ r.groupindex →
      Subscription.init feedName name pattern (.ok r) sn en
        = .ok { name := name, regex := r, number := ⟨sn, en⟩ }) := by
  refine ⟨fun args => rfl, ?_, ?_⟩
  · intro r h
    simp [Subscription.init, h]
  · intro r h
    simp [Subscription.init, h]

/-- Witness for C8 at concrete inputs. -/
theorem C8_subscription_validation_witness :
    Subscription.init "F" "S" "[" (.error "unterminated character set") none none
      = .error ⟨"Feed " ++ "F" ++ " sub " ++ "S" ++ " pattern " ++ "["
          ++ " not valid regex: " ++ "unterminated character set"⟩ ∧
    Subscription.init "F" "S" "no group" (.ok ⟨[], fun _ => none⟩) none none
      = .error ⟨"Feed " ++ "F" ++ " sub " ++ "S" ++ " pattern " ++ "no group"
          ++ " has no group for the episode number"⟩ ∧
    Subscription.init "F" "S" "E(?P<episode>.)" (.ok ⟨["episode"], fun _ => none⟩)
        (some 1) (some 2)
      = .ok { name := "S", regex := ⟨["episode"], fun _ => none⟩,
              number := ⟨some 1, some 2⟩ } :=
  ⟨(C8_subscription_validation "F" "S" "[" none none).1 "unterminated character set",
   (C8_subscription_validation "F" "S" "no group" none none).2.1
     ⟨[], fun _ => none⟩ (by simp),
   (C8_subscription_validation "F" "S" "E(?P<episode>.)" (some 1) (some 2)).2.2
     ⟨["episode"], fun _ => none⟩ (by simp)⟩

/-! ## Claims C1, C2 and C10 -/

theorem fetch_ok {name url : String} {status : Nat} {parsed rss : ParsedFeed}
    (h : Feed.fetch name url status parsed = .ok rss) : rss = parsed := by
  unfold Feed.fetch at h
  by_cases h1 : status ≠ 200
  · rw [if_pos h1] at h
    exact absurd h (by simp)
  · rw [if_neg h1] at h
    by_cases h2 : parsed.bozo
    · rw [if_pos h2] at h
      exact absurd h (by simp)
    · rw [if_neg h2] at h
      simp only [Except.ok.injEq] at h
      exact h.symm

/-- Counterexample to claim C1 as stated: the feed `cx1Parsed` carries
episodes out of numeric order (newest-first list E3, E5, so E5 is processed
first).  Both exceed the `EpisodeNumber(None, None)` baseline, so both are
matched; the stored number after the scan is 3 — the number of the last
processed match — not the maximum 5, and it is less than the number 5
matched earlier in the same scan. -/
theorem C1_counterexample :
    Feed.matching_subs [cx1Sub] "f" "u" 200 cx1Parsed
      = .ok ([{ name := "s1", regex := cx1Regex, number := ⟨none, some 3⟩ }],
             [⟨0, ⟨none, some 5⟩, 1, cx1EntryOld⟩, ⟨0, ⟨none, some 3⟩, 0, cx1EntryNew⟩]) ∧
    EpisodeNumber.gt ⟨none, some 5⟩ ⟨none, some 3⟩ = true :=
  ⟨rfl, rfl⟩

/-- Claim C1 (amended): after a `matching_subs` scan, each subscription's
stored number equals the number of its last yielded match this scan (or its
cycle-start baseline when it had none); every yielded number is strictly
greater than the baseline, so the stored value is never below the baseline —
but it is the last match, not the maximum of all matches. -/
theorem C1_amended (subs : List Sub) (name url : String) (status : Nat)
    (parsed : ParsedFeed) (subs2 : List Sub) (ys : List Yield)
    (h : Feed.matching_subs subs name url status parsed = .ok (subs2, ys)) :
    subs2.length = subs.length ∧
    ∀ j, j < subs.length →
      (∀ y ∈ ys.filter (fun y => y.subIdx == j),
        y.number.gt (subs.getD j defaultSub).number = true) ∧
      (match (ys.filter (fun y => y.subIdx == j)).getLast? with
       | none => (subs2.getD j defaultSub).number = (subs.getD j defaultSub).number
       | some y => (subs2.getD j defaultSub).number = y.number) := by
  unfold Feed.matching_subs at h
  by_cases hempty : subs.isEmpty = true
  · rw [if_pos hempty] at h
    simp only [Except.ok.injEq, Prod.mk.injEq] at h
    obtain ⟨h1, h2⟩ := h
    subst h1
    subst h2
    have hnil : subs = [] := List.isEmpty_iff.1 hempty
    subst hnil
    refine ⟨rfl, ?_⟩
    intro j hj
    simp at hj
  · rw [if_neg hempty] at h
    cases hf : Feed.fetch name url status parsed with
    | error err =>
      rw [hf] at h
      exact absurd h (by simp)
    | ok rss =>
      rw [hf] at h
      dsimp only at h
      cases hscan : scanEntries rss.entries.enum.reverse
          (subs.map fun s => (s, s.number)) with
      | error err =>
        rw [hscan] at h
        exact absurd h (by simp)
      | ok q =>
        obtain ⟨pairs2, ys0⟩ := q
        rw [hscan] at h
        dsimp only at h
        simp only [Except.ok.injEq, Prod.mk.injEq] at h
        obtain ⟨h1, h2⟩ := h
        subst h1
        subst h2
        obtain ⟨S1, _, S3⟩ := scanEntries_spec _ _ _ _ hscan
        have hlen : (subs.map fun s => (s, s.number)).length = subs.length :=
          List.length_map _ _
        constructor
        · rw [List.length_map, S1, hlen]
        · intro j hj
          have hjp : j < (subs.map fun s => (s, s.number)).length := by
            rw [hlen]; exact hj
          obtain ⟨_, _, _, S3d, S3e⟩ := S3 j hjp
          have hgetD := getD_map_pair subs j hj
          have hfst := getD_map_fst pairs2 j (by rw [S1]; exact hjp)
          rw [hgetD] at S3d S3e
          constructor
          · intro y hy
            exact S3d y hy
          · cases hl : (ys0.filter (fun y => y.subIdx == j)).getLast? with
            | none =>
              rw [hl] at S3e
              dsimp only at S3e ⊢
              rw [hfst]
              exact S3e
            | some y =>
              rw [hl] at S3e
              dsimp only at S3e ⊢
              rw [hfst]
              exact S3e

/-- Witness for the amended C1: an in-order two-entry feed whose matches are
1 then 2; the stored number ends as the last (and here also greatest) match. -/
theorem C1_amended_witness :
    Feed.matching_subs [w1Sub] "f" "u" 200 w1Parsed = .ok (w1Subs2, w1Ys) ∧
    (w1Subs2.getD 0 defaultSub).number = ⟨none, some 2⟩ := by
  have h : Feed.matching_subs [w1Sub] "f" "u" 200 w1Parsed = .ok (w1Subs2, w1Ys) := rfl
  refine ⟨h, ?_⟩
  have H := (C1_amended [w1Sub] "f" "u" 200 w1Parsed w1Subs2 w1Ys h).2 0 (by simp)
  have hlast : (w1Ys.filter (fun y => y.subIdx == 0)).getLast?
      = some ⟨0, ⟨none, some 2⟩, 0, w1EntryNew⟩ := rfl
  have H2 := H.2
  rw [hlast] at H2
  exact H2

/-- Counterexample to claim C2 as stated: in the out-of-order feed
`cx2Parsed`, the entry with episode 6 is processed after the yield of
episode 7 has already raised the running number, yet it is still yielded
because it exceeds the cycle-start baseline; the yielded numbers 7, 6 are
not strictly increasing (6 is not greater than 7). -/
theorem C2_counterexample :
    Feed.matching_subs [cx2Sub] "f" "u" 200 cx2Parsed
      = .ok ([{ name := "s2", regex := cx2Regex, number := ⟨none, some 6⟩ }],
             [⟨0, ⟨none, some 7⟩, 1, cx2EntryOld⟩, ⟨0, ⟨none, some 6⟩, 0, cx2EntryNew⟩]) ∧
    EpisodeNumber.gt ⟨none, some 6⟩ ⟨none, some 7⟩ = false :=
  ⟨rfl, rfl⟩

/-- Claim C2 (amended): entries are visited oldest-to-newest (the
newest-first entry list reversed, so the yields' original entry indices are
non-increasing), and an entry that matches is yielded whenever its parsed
number is strictly greater than the subscription's cycle-start baseline —
even when it is not greater than the running number already raised this
scan, so the per-subscription yield numbers need not be strictly
increasing. -/
theorem C2_amended (subs : List Sub) (name url : String) (status : Nat)
    (parsed : ParsedFeed) (subs2 : List Sub) (ys : List Yield)
    (h : Feed.matching_subs subs name url status parsed = .ok (subs2, ys)) :
    List.Sorted (fun a b => a ≥ b) (ys.map Yield.entryIdx) ∧
    (∀ y ∈ ys, y.subIdx < subs.length ∧
      y.number.gt (subs.getD y.subIdx defaultSub).number = true ∧
      (y.entryIdx, y.entry) ∈ parsed.entries.enum) ∧
    (∀ (j i : Nat) (e : Entry) (n : EpisodeNumber), j < subs.length →
      (i, e) ∈ parsed.entries.enum →
      matchNumber (subs.getD j defaultSub).regex e = .ok (some n) →
      n.gt (subs.getD j defaultSub).number = true →
      (⟨j, n, i, e⟩ : Yield) ∈ ys) := by
  unfold Feed.matching_subs at h
  by_cases hempty : subs.isEmpty = true
  · rw [if_pos hempty] at h
    simp only [Except.ok.injEq, Prod.mk.injEq] at h
    obtain ⟨h1, h2⟩ := h
    subst h1
    subst h2
    have hnil : subs = [] := List.isEmpty_iff.1 hempty
    refine ⟨by simp [List.Sorted], by simp, ?_⟩
    intro j i e n hj _ _ _
    rw [hnil] at hj
    simp at hj
  · rw [if_neg hempty] at h
    cases hf : Feed.fetch name url status parsed with
    | error err =>
      rw [hf] at h
      exact absurd h (by simp)
    | ok rss =>
      have hrss : rss = parsed := fetch_ok hf
      rw [hf] at h
      dsimp only at h
      rw [hrss] at h
      cases hscan : scanEntries parsed.entries.enum.reverse
          (subs.map fun s => (s, s.number)) with
      | error err =>
        rw [hscan] at h
        exact absurd h (by simp)
      | ok q =>
        obtain ⟨pairs2, ys0⟩ := q
        rw [hscan] at h
        dsimp only at h
        simp only [Except.ok.injEq, Prod.mk.injEq] at h
        obtain ⟨h1, h2⟩ := h
        subst h1
        subst h2
        obtain ⟨_, S2, S3⟩ := scanEntries_spec _ _ _ _ hscan
        refine ⟨?_, ?_, ?_⟩
        · have hsorted : List.Pairwise (fun a b => b ≤ a)
              ((parsed.entries.enum.reverse).map Prod.fst) := by
            rw [List.map_reverse, List.enum_map_fst]
            rw [List.pairwise_reverse]
            exact (List.pairwise_lt_range _).imp (fun hab => le_of_lt hab)
          exact scanEntries_sorted _ _ _ _ hscan hsorted
        · intro y hy
          obtain ⟨hb, hmem⟩ := S2 y hy
          have hblen : y.subIdx < subs.length := by
            rw [← List.length_map subs (fun s => (s, s.number))]
            exact hb
          refine ⟨hblen, ?_, List.mem_reverse.1 hmem⟩
          obtain ⟨_, _, _, S3d, _⟩ := S3 y.subIdx hb
          rw [getD_map_pair subs y.subIdx hblen] at S3d
          exact S3d y (List.mem_filter.2 ⟨hy, by simp⟩)
        · intro j i e n hj hmem hmn hgt
          apply scanEntries_complete _ _ _ _ hscan j n i e
          · rw [List.length_map]
            exact hj
          · exact List.mem_reverse.2 hmem
          · rw [getD_map_pair subs j hj]
            exact hmn
          · rw [getD_map_pair subs j hj]
            dsimp only
            exact hgt

/-- Witness for the amended C2: an in-order two-entry feed; the yields'
entry indices are non-increasing, each yield exceeds the baseline, and an
entry whose parsed number exceeds the baseline is yielded. -/
theorem C2_amended_witness :
    Feed.matching_subs [w2Sub] "f" "u" 200 w2Parsed = .ok (w2Subs2, w2Ys) ∧
    List.Sorted (fun a b => a ≥ b) (w2Ys.map Yield.entryIdx) ∧
    EpisodeNumber.gt ⟨none, some 1⟩ (([w2Sub].getD 0 defaultSub)).number = true ∧
    (⟨0, ⟨none, some 2⟩, 0, w2EntryNew⟩ : Yield) ∈ w2Ys := by
  have h : Feed.matching_subs [w2Sub] "f" "u" 200 w2Parsed = .ok (w2Subs2, w2Ys) := rfl
  have H := C2_amended [w2Sub] "f" "u" 200 w2Parsed w2Subs2 w2Ys h
  have hmem : (⟨0, ⟨none, some 1⟩, 1, w2EntryOld⟩ : Yield) ∈ w2Ys := by decide
  refine ⟨h, H.1, (H.2.1 ⟨0, ⟨none, some 1⟩, 1, w2EntryOld⟩ hmem).2.1, ?_⟩
  exact H.2.2 0 0 w2EntryNew ⟨none, some 2⟩ (by simp) (by decide) rfl rfl

/-- Claim C10: every `EpisodeNumber` successfully produced by
`from_regex_match` has a set episode; consequently, for a subscription whose
cycle-start baseline is `EpisodeNumber(None, None)`, every feed entry whose
title matches its pattern (with a successfully parsed number) is strictly
greater than the baseline and is yielded by a completed scan. -/
theorem C10_min_baseline_yields :
    (∀ (groups : GroupDict) (n : EpisodeNumber),
      EpisodeNumber.from_regex_match groups = .ok n → n.episode.isSome = true) ∧
    (∀ (subs : List Sub) (name url : String) (status : Nat) (parsed : ParsedFeed)
      (subs2 : List Sub) (ys : List Yield) (j i : Nat) (e : Entry) (n : EpisodeNumber),
      Feed.matching_subs subs name url status parsed = .ok (subs2, ys) →
      j < subs.length →
      (subs.getD j defaultSub).number = ⟨none, none⟩ →
      (i, e) ∈ parsed.entries.enum →
      matchNumber (subs.getD j defaultSub).regex e = .ok (some n) →
      n.gt ⟨none, none⟩ = true ∧ (⟨j, n, i, e⟩ : Yield) ∈ ys) := by
  constructor
  · exact fun groups n h => from_regex_match_episode_isSome h
  · intro subs name url status parsed subs2 ys j i e n h hj hbase hmem hmn
    obtain ⟨groups, _, hfr⟩ := matchNumber_ok_some hmn
    have hgt : n.gt ⟨none, none⟩ = true :=
      gt_of_episode_isSome_min (from_regex_match_episode_isSome hfr)
    refine ⟨hgt, ?_⟩
    unfold Feed.matching_subs at h
    by_cases hempty : subs.isEmpty = true
    · have hnil : subs = [] := List.isEmpty_iff.1 hempty
      subst hnil
      simp at hj
    · rw [if_neg hempty] at h
      cases hf : Feed.fetch name url status parsed with
      | error err =>
        rw [hf] at h
        exact absurd h (by simp)
      | ok rss =>
        have hrss : rss = parsed := fetch_ok hf
        rw [hf] at h
        dsimp only at h
        rw [hrss] at h
        cases hscan : scanEntries parsed.entries.enum.reverse
            (subs.map fun s => (s, s.number)) with
        | error err =>
          rw [hscan] at h
          exact absurd h (by simp)
        | ok q =>
          obtain ⟨pairs2, ys0⟩ := q
          rw [hscan] at h
          dsimp only at h
          simp only [Except.ok.injEq, Prod.mk.injEq] at h
          obtain ⟨h1, h2⟩ := h
          subst h1
          subst h2
          apply scanEntries_complete _ _ _ _ hscan j n i e
          · rw [List.length_map]
            exact hj
          · exact List.mem_reverse.2 hmem
          · rw [getD_map_pair subs j hj]
            exact hmn
          · rw [getD_map_pair subs j hj]
            dsimp only
            rw [hbase]
            exact hgt

/-- Witness for C10: a single-entry feed matched against a subscription with
no stored number; the match is yielded. -/
theorem C10_min_baseline_yields_witness :
    (⟨none, some 7⟩ : EpisodeNumber).episode.isSome = true ∧
    EpisodeNumber.gt ⟨none, some 7⟩ ⟨none, none⟩ = true ∧
    (⟨0, ⟨none, some 7⟩, 0, w10Entry⟩ : Yield) ∈ w10Ys := by
  have h : Feed.matching_subs [w10Sub] "f" "u" 200 w10Parsed
      = .ok (w10Subs2, w10Ys) := rfl
  have H := (C10_min_baseline_yields).2 [w10Sub] "f" "u" 200 w10Parsed w10Subs2 w10Ys
    0 0 w10Entry ⟨none, some 7⟩ h (by simp) rfl (by decide) rfl
  exact ⟨(C10_min_baseline_yields).1 [("episode", some "7")] ⟨none, some 7⟩ rfl,
    H.1, H.2⟩

end TorrentRSS
